import Mathlib

/-! Triad Flair chat backend: onboarding dialogue and retrieval pipeline.

A shallow embedding of `src/api/server.js` (the `/chat` handler, `isValidEmail`,
`queryVectorDB` and its helpers; `src/server.js` carries the same functions
verbatim) together with theorems about them.

Modelling conventions
* A JavaScript string is a Lean `String`; the regular expression of
  `isValidEmail` has no `u` flag, and every class it uses treats the two halves
  of a surrogate pair alike, so matching code points agrees with matching
  UTF-16 code units.
* The MongoDB collection `user_queries` is a list of documents in natural
  order; `findOne` returns the first match, `updateOne` rewrites the first
  match, `insertOne` appends.
* The external services (embedding, vector index, generative model) and
  `uuidv4` are inputs of the model: an environment of functions whose failure
  is `none`, and the identifier `uuidv4()` would return for the request.
* Store calls succeed and the body's `query` is a string or absent; requests
  are handled one after the other.
-/

namespace TriadFlair

/-! ## Strings -/

/-- White space as ECMAScript defines it for `String.prototype.trim` and for the
regular-expression class `\s` (WhiteSpace and LineTerminator code points). -/
def isJsWhitespace (c : Char) : Bool :=
  let n := c.toNat
  n == 0x09 || n == 0x0A || n == 0x0B || n == 0x0C || n == 0x0D || n == 0x20 ||
  n == 0xA0 || n == 0x1680 || (0x2000 ≤ n && n ≤ 0x200A) || n == 0x2028 ||
  n == 0x2029 || n == 0x202F || n == 0x205F || n == 0x3000 || n == 0xFEFF

/-- Characters of `s.trim()`: leading and trailing white space removed. -/
def trimChars (s : List Char) : List Char :=
  ((s.dropWhile isJsWhitespace).reverse.dropWhile isJsWhitespace).reverse

/-- The method `String.prototype.trim`. -/
def trim (s : String) : String := String.mk (trimChars s.toList)

/-- JavaScript truthiness of a value that is a string or `undefined`. -/
def truthyStr : Option String → Bool
  | none => false
  | some s => !s.toList.isEmpty

/-! ## Regular expressions (the fragment `isValidEmail` uses) -/

/-- A single-character matcher. -/
inductive Atom where
  /-- The negated class `[^\s@]`. -/
  | notSpaceAt
  /-- A literal character. -/
  | lit (c : Char)
  deriving DecidableEq

/-- Whether one character is matched by an atom. -/
def Atom.test : Atom → Char → Bool
  | .notSpaceAt, c => !isJsWhitespace c && c != '@'
  | .lit d, c => c == d

/-- A pattern item: an atom once, or an atom under the greedy `+`. -/
inductive Item where
  | one (a : Atom)
  | plus (a : Atom)
  deriving DecidableEq

/-- Backtracking match of a sequence of items against the whole input, that is
the pattern between `^` and `$`: `+` first tries to consume more and falls back
to handing over to the rest of the pattern. -/
def matchItems : List Item → List Char → Bool
  | [], [] => true
  | [], _ :: _ => false
  | _ :: _, [] => false
  | .one a :: rest, c :: cs => a.test c && matchItems rest cs
  | .plus a :: rest, c :: cs =>
      a.test c && (matchItems (.plus a :: rest) cs || matchItems rest cs)

/-- The pattern `/^[^\s@]+@[^\s@]+\.[^\s@]+$/`. -/
def emailRe : List Item :=
  [.plus .notSpaceAt, .one (.lit '@'), .plus .notSpaceAt, .one (.lit '.'),
   .plus .notSpaceAt]

/-- The function `isValidEmail`: `re.test(email)`. -/
def isValidEmail (email : String) : Bool := matchItems emailRe email.toList

/-! ## Data model -/

/-- A document of the collection `user_queries`. `name` and `services` are
absent until the dialogue sets them. -/
structure UserRecord where
  _id : String
  email : String
  name : Option String
  services : Option (List String)
  deriving DecidableEq

/-- The collection `user_queries`, in natural order. -/
abbrev Store := List UserRecord

/-- The fields of `req.session` the handler reads and writes; `none` is
`undefined`. -/
structure Session where
  session_id : Option String
  awaiting_service : Option Bool
  deriving DecidableEq

/-- What the handler sends: `res.json({message})`, `res.json({response})`, or
`res.status(status).json({error})`. -/
inductive Reply where
  | message (text : String)
  | response (text : String)
  | error (status : Nat) (text : String)
  deriving DecidableEq

/-- The query `collection.findOne({ _id: id })`. -/
def findById (st : Store) (id : String) : Option UserRecord :=
  st.find? (fun r => r._id == id)

/-- The query `collection.findOne({ email: email })`. -/
def findByEmail (st : Store) (email : String) : Option UserRecord :=
  st.find? (fun r => r.email == email)

/-- The call `collection.insertOne(doc)`. -/
def insertOne (st : Store) (doc : UserRecord) : Store := st ++ [doc]

/-- The call `collection.updateOne({ _id: id }, update)`: the first document with
that `_id` is rewritten, the others are left alone. -/
def updateOne (st : Store) (id : String) (update : UserRecord → UserRecord) : Store :=
  match st with
  | [] => []
  | r :: rest => if r._id == id then update r :: rest else r :: updateOne rest id update

/-- The update `{ $set: { name: n } }`. -/
def setName (n : String) (r : UserRecord) : UserRecord := { r with name := some n }

/-- The update `{ $set: { services: l } }`. -/
def setServices (l : List String) (r : UserRecord) : UserRecord :=
  { r with services := some l }

/-- The update `{ $addToSet: { services: s } }`: appends `s` unless the array
already holds it; an absent field becomes `[s]`. -/
def addToSetServices (s : String) (r : UserRecord) : UserRecord :=
  { r with services :=
      match r.services with
      | some l => if l.contains s then some l else some (l ++ [s])
      | none => some [s] }

/-! ## Retrieval pipeline -/

/-- A match of the vector index, with the two metadata fields the pipeline
reads, as the text the template literal makes of them (the score is never
read). -/
structure Match where
  url : String
  content : String
  deriving DecidableEq

/-- The external services. `none` is a rejected call; for `embedContent` the
result lists, per embedding, its `values` when present; for `query` the inner
option is the `matches` field; for `generateContent` the inner option is the
`text` field. -/
structure Env (V : Type) where
  embedContent : String → Option (List (Option V))
  query : V → Nat → Option (Option (List Match))
  generateContent : String → Option (Option String)

/-- An outbound call, as recorded in the order it is made. -/
inductive Call (V : Type) where
  | embedContent (contents : String)
  | query (vector : V) (topK : Nat)
  | generateContent (contents : String)
  deriving DecidableEq

/-- Whether a recorded call is a call of the generative model. -/
def Call.isGenerate {V : Type} : Call V → Bool
  | .generateContent _ => true
  | _ => false

variable {V : Type}

/-- The function `embedWithGemini`: `embeddings[0]?.values ?? null`, and `null`
on any failure. -/
def embedWithGemini (env : Env V) (text : String) : Option V × List (Call V) :=
  (match env.embedContent text with
   | some (some values :: _) => some values
   | _ => none,
   [.embedContent text])

/-- The function `retrieveFromPinecone`; its caller leaves `topK` at the default,
which is 3. -/
def retrieveFromPinecone (env : Env V) (query : String) (topK : Nat) :
    List Match × List (Call V) :=
  let (vector, log) := embedWithGemini env query
  match vector with
  | none => ([], log)
  | some vector =>
    (match env.query vector topK with
     | some (some found) => found
     | _ => [],
     log ++ [.query vector topK])

/-- The prompt `generateResponse` builds: four lines joined by blank lines. -/
def buildPrompt (userQuery context : String) : String :=
  "\n\n".intercalate
    ["User query: " ++ userQuery,
     "Context:\n" ++ context,
     "You are the chat support of website Triad Flair. Answer precisely and on-topic.",
     "If outside scope, say you can only answer based on heyaryan.com."]

/-- The function `generateResponse`: the model's trimmed text, or the fallback
string when the call fails or yields no text. -/
def generateResponse (env : Env V) (userQuery context : String) : String × List (Call V) :=
  let prompt := buildPrompt userQuery context
  (match env.generateContent prompt with
   | some (some text) => trim text
   | _ => "Error generating response.",
   [.generateContent prompt])

/-- The context `queryVectorDB` derives from the retrieved documents. -/
def buildContext (relevantDocs : List Match) : String :=
  if relevantDocs.length > 0 then
    "\n\n".intercalate
      (relevantDocs.map fun doc => "Source: " ++ doc.url ++ "\nContent: " ++ doc.content)
  else
    "No relevant information found."

/-- The function `queryVectorDB`. -/
def queryVectorDB (env : Env V) (userQuery : String) : String × List (Call V) :=
  let (relevantDocs, log) := retrieveFromPinecone env userQuery 3
  let (text, log2) := generateResponse env userQuery (buildContext relevantDocs)
  (text, log ++ log2)

/-! ## The `/chat` handler -/

def emailPrompt : String := "What is your email address?"
def formatError : String :=
  "That doesn’t look like an email. Please enter a valid email address."
def namePrompt : String := "What is your name?"
def servicePrompt : String := "For what service are you looking?"
/-- The greeting template. -/
def greeting (userName : String) : String := "Hi! " ++ userName ++ ", How can I assist you?"

/-- The session after `if (!req.session.session_id) req.session.session_id = uuidv4()`. -/
def ensureSession (uuid : String) (sess : Session) : Session :=
  if truthyStr sess.session_id then sess else { sess with session_id := some uuid }

/-- The value of `req.session.session_id` once it is set. -/
def Session.sid (sess : Session) : String := sess.session_id.getD ""

/-- The test `data.query && data.query.trim()` read as a condition. -/
def hasText (query : Option String) : Bool :=
  truthyStr query && truthyStr (query.map trim)

/-- The value `data.query.trim()` where the query is known to be present. -/
def trimmed (query : Option String) : String := trim (query.getD "")

/-- The handler of `POST /chat`, for a request whose body carries `query`
(absent: `none`), on the collection `st` and the session `sess`; `uuid` is what
`uuidv4()` returns if called. Yields the collection, the session and the reply. -/
def chat (env : Env V) (uuid : String) (st : Store) (sess : Session)
    (query : Option String) : Store × Session × Reply :=
  let sess := ensureSession uuid sess
  let sessionId := sess.sid
  match findById st sessionId with
  | none =>
    -- Step 1: ask for email if user data is not present.
    let raw := if truthyStr (query.map trim) then trimmed query else ""
    if !truthyStr (some raw) then
      (st, sess, .message emailPrompt)
    else if !isValidEmail raw then
      (st, sess, .message formatError)
    else
      match findByEmail st raw with
      | some existingUser =>
        (st, { session_id := some existingUser._id, awaiting_service := some true },
          .message servicePrompt)
      | none =>
        (insertOne st { _id := sessionId, email := raw, name := none, services := none },
          sess, .message namePrompt)
  | some _ =>
    -- Reload user data after any session update.
    match findById st sess.sid with
    | none => (st, sess, .error 500 "Internal server error")
    | some userData =>
      if !truthyStr userData.name then
        -- Step 2: ask for name.
        if !hasText query then
          (st, sess, .message namePrompt)
        else
          (updateOne st sess.sid (setName (trimmed query)),
            { sess with awaiting_service := some true }, .message servicePrompt)
      else if sess.awaiting_service == some true then
        -- Step 3: add service if waiting for it.
        if !hasText query then
          (st, sess, .message servicePrompt)
        else
          let newService := trimmed query
          let st :=
            match userData.services with
            | some _ => updateOne st sess.sid (addToSetServices newService)
            | none => updateOne st sess.sid (setServices [newService])
          (st, { sess with awaiting_service := some false },
            .message (greeting (userData.name.getD "")))
      else if hasText query then
        -- Step 4: handle actual chat queries.
        (st, sess, .response (queryVectorDB env (trimmed query)).1)
      else
        (st, sess, .error 400 "Invalid request")

/-! ## Sequences of requests -/

/-- The collection together with the session of every client (cookie). -/
structure Sys where
  store : Store
  sessions : Nat → Session

/-- A request: the client it comes from, its `query`, and the identifier
`uuidv4()` would hand out while it is handled. -/
structure Request where
  client : Nat
  query : Option String
  uuid : String

/-- The empty collection and no session data. -/
def Sys.init : Sys := ⟨[], fun _ => ⟨none, none⟩⟩

/-- Handling one request. -/
def Sys.step (env : Env V) (s : Sys) (r : Request) : Sys × Reply :=
  let out := chat env r.uuid s.store (s.sessions r.client) r.query
  (⟨out.1, fun c => if c = r.client then out.2.1 else s.sessions c⟩, out.2.2)

/-- Handling requests one after the other. -/
def Sys.run (env : Env V) (s : Sys) : List Request → Sys
  | [] => s
  | r :: rs => Sys.run env (s.step env r).1 rs

/-- The replies of a sequence of requests, in order. -/
def Sys.replies (env : Env V) (s : Sys) : List Request → List Reply
  | [] => []
  | r :: rs => (s.step env r).2 :: Sys.replies env (s.step env r).1 rs

/-- The run of a sequence of requests: for each request the state it is handled
in, the request, and its reply. -/
def Sys.trace (env : Env V) (s : Sys) : List Request → List (Sys × Request × Reply)
  | [] => []
  | r :: rs => (s, r, (s.step env r).2) :: Sys.trace env (s.step env r).1 rs

/-- States reachable from the empty collection and fresh sessions by handling
requests one after the other; `uuidv4()` never returns the empty string. -/
def Reachable (env : Env V) (s : Sys) : Prop :=
  ∃ rs : List Request, (∀ r ∈ rs, r.uuid ≠ "") ∧ Sys.run env Sys.init rs = s

/-- The services of a record as a list (none when the field is absent). -/
def UserRecord.serviceList (r : UserRecord) : List String := r.services.getD []

/-- The request `req`, handled in state `s`, is a non-empty submission of the
service `svc` in `AwaitingService` for the record `id`. -/
def IsServiceSubmission (s : Sys) (req : Request) (id svc : String) : Prop :=
  (ensureSession req.uuid (s.sessions req.client)).sid = id ∧
  (∃ r, findById s.store id = some r ∧ truthyStr r.name = true) ∧
  (s.sessions req.client).awaiting_service = some true ∧
  ∃ q, req.query = some q ∧ trim q = svc ∧ svc ≠ ""

/-! ## Sample data for concrete evaluations -/

/-- An environment whose embedding call fails and whose model answers with
text, padded with white space. -/
def sampleEnv : Env Nat :=
  ⟨fun _ => none, fun _ _ => none, fun _ => some (some " We serve the whole city. ")⟩

/-- An environment whose embedding call fails and whose model answers with
white space only. -/
def blankEnv : Env Nat := ⟨fun _ => none, fun _ _ => none, fun _ => some (some "  ")⟩

/-- A session without any data. -/
def freshSession : Session := ⟨none, none⟩

/-- A collection holding one record that has an email and no name yet. -/
def namelessStore : Store := [⟨"u1", "a@b.com", none, none⟩]

/-! ## Lemmas on the matcher -/

theorem matchItems_nil (s : List Char) : matchItems [] s = true ↔ s = [] := by
  cases s <;> simp [matchItems]

theorem matchItems_one (a : Atom) (rest : List Item) (s : List Char) :
    matchItems (.one a :: rest) s = true ↔
      ∃ c q, s = c :: q ∧ a.test c = true ∧ matchItems rest q = true := by
  cases s with
  | nil => simp [matchItems]
  | cons c cs =>
    simp only [matchItems, Bool.and_eq_true, List.cons.injEq]
    constructor
    · rintro ⟨h1, h2⟩; exact ⟨c, cs, ⟨rfl, rfl⟩, h1, h2⟩
    · rintro ⟨_, _, ⟨rfl, rfl⟩, h1, h2⟩; exact ⟨h1, h2⟩

theorem matchItems_plus (a : Atom) (rest : List Item) (s : List Char) :
    matchItems (.plus a :: rest) s = true ↔
      ∃ p q, s = p ++ q ∧ p ≠ [] ∧ (∀ c ∈ p, a.test c = true) ∧
        matchItems rest q = true := by
  induction s with
  | nil =>
    simp only [matchItems, Bool.false_eq_true, false_iff]
    rintro ⟨p, q, h, hp, -⟩
    cases p with
    | nil => exact hp rfl
    | cons _ _ => simp at h
  | cons c cs ih =>
    simp only [matchItems, Bool.and_eq_true, Bool.or_eq_true]
    constructor
    · rintro ⟨hc, h | h⟩
      · obtain ⟨p, q, rfl, -, hall, hq⟩ := ih.mp h
        exact ⟨c :: p, q, rfl, by simp, by simpa [hc] using hall, hq⟩
      · exact ⟨[c], cs, rfl, by simp, by simpa using hc, h⟩
    · rintro ⟨p, q, h, hp, hall, hq⟩
      cases p with
      | nil => exact absurd rfl hp
      | cons d p =>
        simp only [List.cons_append, List.cons.injEq] at h
        obtain ⟨rfl, rfl⟩ := h
        refine ⟨hall c (by simp), ?_⟩
        by_cases hp2 : p = []
        · subst hp2; exact Or.inr (by simpa using hq)
        · exact Or.inl (ih.mpr ⟨p, q, rfl, hp2, fun x hx => hall x (by simp [hx]), hq⟩)

theorem notSpaceAt_test (c : Char) :
    Atom.notSpaceAt.test c = true ↔ isJsWhitespace c = false ∧ c ≠ '@' := by
  simp [Atom.test]

theorem lit_test (d c : Char) : (Atom.lit d).test c = true ↔ c = d := by
  simp [Atom.test]

/-- The matcher on the email pattern, unfolded: local part, `@`, domain, `.`,
top-level part, each part non-empty and free of white space and `@`. -/
theorem isValidEmail_iff_shape (s : String) :
    isValidEmail s = true ↔
      ∃ A B C : List Char, s.toList = A ++ '@' :: (B ++ '.' :: C) ∧
        A ≠ [] ∧ B ≠ [] ∧ C ≠ [] ∧
        ∀ c ∈ A ++ B ++ C, isJsWhitespace c = false ∧ c ≠ '@' := by
  unfold isValidEmail emailRe
  simp only [matchItems_plus, matchItems_one, matchItems_nil, notSpaceAt_test, lit_test]
  constructor
  · rintro ⟨A, q, hs, hA, hAall, c, q2, rfl, rfl, B, q3, rfl, hB, hBall, d, q4, rfl, rfl,
      C, q5, rfl, hC, hCall, rfl⟩
    refine ⟨A, B, C, by simpa using hs, hA, hB, hC, ?_⟩
    intro x hx
    simp only [List.mem_append] at hx
    rcases hx with (hx | hx) | hx
    · exact hAall x hx
    · exact hBall x hx
    · exact hCall x hx
  · rintro ⟨A, B, C, hs, hA, hB, hC, hall⟩
    exact ⟨A, _, hs, hA, fun c hc => hall c (by simp [hc]), '@', _, rfl, rfl, B, _, rfl, hB,
      fun c hc => hall c (by simp [hc]), '.', _, rfl, rfl, C, [], by simp, hC,
      fun c hc => hall c (by simp [hc]), rfl⟩

theorem isValidEmail_iff (s : String) :
    isValidEmail s = true ↔
      ((∀ c ∈ s.toList, isJsWhitespace c = false) ∧ s.toList.count '@' = 1 ∧
        ∃ A D : List Char, s.toList = A ++ '@' :: D ∧ A ≠ [] ∧
          ∃ B C : List Char, D = B ++ '.' :: C ∧ B ≠ [] ∧ C ≠ []) := by
  rw [isValidEmail_iff_shape]
  constructor
  · rintro ⟨A, B, C, hs, hA, hB, hC, hall⟩
    have hno : ∀ l : List Char, (∀ c ∈ l, c ∈ A ++ B ++ C) → l.count '@' = 0 := by
      intro l hl
      rw [List.count_eq_zero]
      intro hmem
      exact (hall _ (hl _ hmem)).2 rfl
    refine ⟨?_, ?_, A, _, hs, hA, B, C, rfl, hB, hC⟩
    · intro c hc
      rw [hs] at hc
      simp only [List.mem_append, List.mem_cons] at hc
      rcases hc with hc | rfl | hc | rfl | hc
      · exact (hall c (by simp [hc])).1
      · decide
      · exact (hall c (by simp [hc])).1
      · decide
      · exact (hall c (by simp [hc])).1
    · rw [hs]
      have h1 := hno A (fun c hc => by simp [hc])
      have h2 := hno B (fun c hc => by simp [hc])
      have h3 := hno C (fun c hc => by simp [hc])
      have hdot : ('.' == '@') = false := by decide
      simp [List.count_append, List.count_cons, h1, h2, h3, hdot]
  · rintro ⟨hws, hcount, A, D, hs, hA, B, C, rfl, hB, hC⟩
    refine ⟨A, B, C, hs, hA, hB, hC, ?_⟩
    have hdot : ('.' == '@') = false := by decide
    rw [hs] at hcount
    simp only [List.count_append, List.count_cons, hdot, beq_self_eq_true, if_true,
      Bool.false_eq_true, if_false] at hcount
    have hz : A.count '@' = 0 ∧ B.count '@' = 0 ∧ C.count '@' = 0 := by omega
    simp only [List.count_eq_zero] at hz
    intro c hc
    refine ⟨hws c ?_, ?_⟩
    · rw [hs]
      simp only [List.mem_append] at hc
      rcases hc with (hc | hc) | hc <;> simp [hc]
    · rintro rfl
      simp only [List.mem_append] at hc
      rcases hc with (hc | hc) | hc
      · exact hz.1 hc
      · exact hz.2.1 hc
      · exact hz.2.2 hc

/-- C8: `isValidEmail s` holds exactly when `s` has no white space and exactly
one `@`, a non-empty part before the `@`, and after the `@` a `.` with at least
one character before it and one after it; it is false on the empty string, on
every string without `@`, on every string without a `.` after the `@`, and true
on `"a@b.co"`. -/
theorem isValidEmail_spec :
    (∀ s : String, isValidEmail s = true ↔
      ((∀ c ∈ s.toList, isJsWhitespace c = false) ∧ s.toList.count '@' = 1 ∧
        ∃ A D : List Char, s.toList = A ++ '@' :: D ∧ A ≠ [] ∧
          ∃ B C : List Char, D = B ++ '.' :: C ∧ B ≠ [] ∧ C ≠ [])) ∧
    isValidEmail "" = false ∧
    (∀ s : String, '@' ∉ s.toList → isValidEmail s = false) ∧
    (∀ s : String, (∀ A D : List Char, s.toList = A ++ '@' :: D → '.' ∉ D) →
      isValidEmail s = false) ∧
    isValidEmail "a@b.co" = true := by
  refine ⟨isValidEmail_iff, by decide, ?_, ?_, by decide⟩
  · intro s h
    rw [Bool.eq_false_iff]
    intro hv
    obtain ⟨-, -, A, D, hs, -⟩ := (isValidEmail_iff s).mp hv
    exact h (by rw [hs]; simp)
  · intro s h
    rw [Bool.eq_false_iff]
    intro hv
    obtain ⟨-, -, A, D, hs, -, B, C, rfl, -⟩ := (isValidEmail_iff s).mp hv
    exact h A _ hs (by simp)

/-! ## Lemmas on strings and queries -/

theorem toList_eq_nil_iff (s : String) : s.toList = [] ↔ s = "" := by
  constructor
  · intro h; exact String.ext h
  · rintro rfl; rfl

theorem truthyStr_some (s : String) : truthyStr (some s) = true ↔ s ≠ "" := by
  simp [truthyStr, ← toList_eq_nil_iff]

theorem trim_empty : trim "" = "" := by decide

theorem hasText_iff (query : Option String) :
    hasText query = true ↔ ∃ q, query = some q ∧ trim q ≠ "" := by
  cases query with
  | none => simp [hasText, truthyStr]
  | some q =>
    simp only [hasText, Option.map_some', Bool.and_eq_true, truthyStr_some, Option.some.injEq,
      exists_eq_left']
    constructor
    · exact fun h => h.2
    · intro h
      refine ⟨?_, h⟩
      rintro rfl
      exact h trim_empty

theorem hasText_false_iff (query : Option String) :
    hasText query = false ↔ ∀ q, query = some q → trim q = "" := by
  rw [← Bool.not_eq_true, hasText_iff]
  push_neg
  rfl

theorem hasText_some (q : String) : hasText (some q) = truthyStr (some (trim q)) := by
  rw [Bool.eq_iff_iff, hasText_iff, truthyStr_some]
  simp

theorem trimmed_some (q : String) : trimmed (some q) = trim q := rfl

/-- The value `data.query?.trim() || ""` of step 1. -/
theorem raw_eq (query : Option String) :
    (if truthyStr (query.map trim) then trimmed query else "") =
      if hasText query then trimmed query else "" := by
  cases query with
  | none => simp [hasText, truthyStr]
  | some q => simp [hasText_some]

/-! ## The branches of the handler -/

section Branches
variable (env : Env V) (uuid : String) (st : Store) (sess : Session) (query : Option String)

theorem ensureSession_flag :
    (ensureSession uuid sess).awaiting_service = sess.awaiting_service := by
  unfold ensureSession; split <;> rfl

theorem chat_empty (hrec : findById st (ensureSession uuid sess).sid = none)
    (hq : hasText query = false) :
    chat env uuid st sess query = (st, ensureSession uuid sess, .message emailPrompt) := by
  simp only [chat, hrec, raw_eq, hq]
  simp [truthyStr]

theorem chat_badEmail (hrec : findById st (ensureSession uuid sess).sid = none)
    (hq : hasText query = true) (hv : isValidEmail (trimmed query) = false) :
    chat env uuid st sess query = (st, ensureSession uuid sess, .message formatError) := by
  obtain ⟨q, rfl, hne⟩ := (hasText_iff _).mp hq
  have ht : truthyStr (some (trim q)) = true := (truthyStr_some _).mpr hne
  simp only [trimmed_some] at hv
  simp [chat, hrec, raw_eq, hq, trimmed_some, ht, hv]

theorem chat_existing (hrec : findById st (ensureSession uuid sess).sid = none)
    (hq : hasText query = true) (hv : isValidEmail (trimmed query) = true)
    (r : UserRecord) (he : findByEmail st (trimmed query) = some r) :
    chat env uuid st sess query =
      (st, ⟨some r._id, some true⟩, .message servicePrompt) := by
  obtain ⟨q, rfl, hne⟩ := (hasText_iff _).mp hq
  have ht : truthyStr (some (trim q)) = true := (truthyStr_some _).mpr hne
  simp only [trimmed_some] at hv he
  simp [chat, hrec, raw_eq, hq, trimmed_some, ht, hv, he]

theorem chat_new (hrec : findById st (ensureSession uuid sess).sid = none)
    (hq : hasText query = true) (hv : isValidEmail (trimmed query) = true)
    (he : findByEmail st (trimmed query) = none) :
    chat env uuid st sess query =
      (insertOne st ⟨(ensureSession uuid sess).sid, trimmed query, none, none⟩,
        ensureSession uuid sess, .message namePrompt) := by
  obtain ⟨q, rfl, hne⟩ := (hasText_iff _).mp hq
  have ht : truthyStr (some (trim q)) = true := (truthyStr_some _).mpr hne
  simp only [trimmed_some] at hv he
  simp [chat, hrec, raw_eq, hq, trimmed_some, ht, hv, he]

theorem chat_askName (r : UserRecord) (hrec : findById st (ensureSession uuid sess).sid = some r)
    (hn : truthyStr r.name = false) (hq : hasText query = false) :
    chat env uuid st sess query = (st, ensureSession uuid sess, .message namePrompt) := by
  simp [chat, hrec, hn, hq]

theorem chat_setName (r : UserRecord) (hrec : findById st (ensureSession uuid sess).sid = some r)
    (hn : truthyStr r.name = false) (hq : hasText query = true) :
    chat env uuid st sess query =
      (updateOne st (ensureSession uuid sess).sid (setName (trimmed query)),
        { ensureSession uuid sess with awaiting_service := some true },
        .message servicePrompt) := by
  simp [chat, hrec, hn, hq]

theorem chat_askService (r : UserRecord)
    (hrec : findById st (ensureSession uuid sess).sid = some r)
    (hn : truthyStr r.name = true) (hf : sess.awaiting_service = some true)
    (hq : hasText query = false) :
    chat env uuid st sess query = (st, ensureSession uuid sess, .message servicePrompt) := by
  simp [chat, hrec, hn, hq, ensureSession_flag, hf]

theorem updateOne_congr (id : String) (f g : UserRecord → UserRecord) (r : UserRecord)
    (h : findById st id = some r) (hfg : f r = g r) : updateOne st id f = updateOne st id g := by
  induction st with
  | nil => rfl
  | cons x xs ih =>
    unfold findById at h ih
    simp only [List.find?_cons] at h
    simp only [updateOne]
    cases hx : (x._id == id) with
    | true =>
      simp only [hx, Option.some.injEq] at h
      subst h
      simp [hfg]
    | false =>
      simp only [hx] at h
      simp [ih h]

theorem chat_addService (r : UserRecord)
    (hrec : findById st (ensureSession uuid sess).sid = some r)
    (hn : truthyStr r.name = true) (hf : sess.awaiting_service = some true)
    (hq : hasText query = true) :
    chat env uuid st sess query =
      (updateOne st (ensureSession uuid sess).sid (addToSetServices (trimmed query)),
        { ensureSession uuid sess with awaiting_service := some false },
        .message (greeting (r.name.getD ""))) := by
  have hupd : ∀ hd, r.services = none →
      updateOne st (ensureSession uuid sess).sid (setServices [hd]) =
        updateOne st (ensureSession uuid sess).sid (addToSetServices hd) := by
    intro hd hnone
    exact updateOne_congr st _ _ _ r hrec (by simp [setServices, addToSetServices, hnone])
  cases hs : r.services with
  | none => simp [chat, hrec, hn, hq, ensureSession_flag, hf, hs, hupd _ hs]
  | some l => simp [chat, hrec, hn, hq, ensureSession_flag, hf, hs]

theorem chat_free (r : UserRecord)
    (hrec : findById st (ensureSession uuid sess).sid = some r)
    (hn : truthyStr r.name = true) (hf : sess.awaiting_service ≠ some true)
    (hq : hasText query = true) :
    chat env uuid st sess query =
      (st, ensureSession uuid sess, .response (queryVectorDB env (trimmed query)).1) := by
  simp [chat, hrec, hn, hq, ensureSession_flag, hf]

theorem chat_invalid (r : UserRecord)
    (hrec : findById st (ensureSession uuid sess).sid = some r)
    (hn : truthyStr r.name = true) (hf : sess.awaiting_service ≠ some true)
    (hq : hasText query = false) :
    chat env uuid st sess query =
      (st, ensureSession uuid sess, .error 400 "Invalid request") := by
  simp [chat, hrec, hn, hq, ensureSession_flag, hf]

end Branches

/-! ## Lemmas on the collection -/

theorem findById_id (st : Store) (id : String) (r : UserRecord)
    (h : findById st id = some r) : r._id = id := by
  have := List.find?_some h
  simpa using this

theorem findById_mem (st : Store) (id : String) (r : UserRecord)
    (h : findById st id = some r) : r ∈ st := List.mem_of_find?_eq_some h

theorem findByEmail_mem (st : Store) (e : String) (r : UserRecord)
    (h : findByEmail st e = some r) : r ∈ st := List.mem_of_find?_eq_some h

theorem findByEmail_none (st : Store) (e : String) (h : findByEmail st e = none) :
    e ∉ st.map (fun r => r.email) := by
  unfold findByEmail at h
  rw [List.find?_eq_none] at h
  simp only [List.mem_map, not_exists, not_and]
  intro r hr heq
  exact h r hr (by simp [heq])

theorem findById_of_mem (st : Store) (r : UserRecord) (h : r ∈ st) :
    ∃ r', findById st r._id = some r' := by
  cases hf : findById st r._id with
  | some r' => exact ⟨r', rfl⟩
  | none =>
    unfold findById at hf
    rw [List.find?_eq_none] at hf
    exact absurd (hf r h) (by simp)

theorem findById_insertOne (st : Store) (d : UserRecord) (id : String) (r : UserRecord)
    (h : findById st id = some r) : findById (insertOne st d) id = some r := by
  unfold findById insertOne at *
  rw [List.find?_append, h]
  rfl

theorem findById_insertOne_new (st : Store) (d : UserRecord)
    (h : findById st d._id = none) : findById (insertOne st d) d._id = some d := by
  unfold findById insertOne at *
  rw [List.find?_append, h]
  simp

theorem findById_updateOne_same (st : Store) (id : String) (f : UserRecord → UserRecord)
    (hf : ∀ r, (f r)._id = r._id) (r : UserRecord) (h : findById st id = some r) :
    findById (updateOne st id f) id = some (f r) := by
  induction st with
  | nil => simp [findById] at h
  | cons x xs ih =>
    unfold findById at h ih ⊢
    simp only [List.find?_cons] at h
    simp only [updateOne]
    cases hx : (x._id == id) with
    | true =>
      simp only [hx, Option.some.injEq] at h
      subst h
      simp [List.find?_cons, hf, hx]
    | false =>
      simp only [hx] at h
      simp [List.find?_cons, hx, ih h]

theorem findById_updateOne_other (st : Store) (id id2 : String) (f : UserRecord → UserRecord)
    (hf : ∀ r, (f r)._id = r._id) (hne : id2 ≠ id) :
    findById (updateOne st id f) id2 = findById st id2 := by
  induction st with
  | nil => rfl
  | cons x xs ih =>
    unfold findById at ih ⊢
    simp only [updateOne]
    cases hx : (x._id == id) with
    | true =>
      have hxid : x._id = id := by simpa using hx
      have h2 : (x._id == id2) = false := by simp [hxid, Ne.symm hne]
      simp [List.find?_cons, hf, h2]
    | false =>
      simp [List.find?_cons, ih]

theorem map_updateOne {α : Type} (g : UserRecord → α) (st : Store) (id : String)
    (f : UserRecord → UserRecord) (hf : ∀ r, g (f r) = g r) :
    (updateOne st id f).map g = st.map g := by
  induction st with
  | nil => rfl
  | cons x xs ih =>
    simp only [updateOne]
    split
    · simp [hf]
    · simp [ih]

theorem mem_updateOne (st : Store) (id : String) (f : UserRecord → UserRecord)
    (r2 : UserRecord) (h : r2 ∈ updateOne st id f) : r2 ∈ st ∨ ∃ r ∈ st, r2 = f r := by
  induction st with
  | nil => simp [updateOne] at h
  | cons x xs ih =>
    simp only [updateOne] at h
    split at h
    · simp only [List.mem_cons] at h
      rcases h with h | h
      · exact Or.inr ⟨x, by simp, h⟩
      · exact Or.inl (by simp [h])
    · simp only [List.mem_cons] at h
      rcases h with h | h
      · exact Or.inl (by simp [h])
      · rcases ih h with h2 | ⟨r, hr, h2⟩
        · exact Or.inl (by simp [h2])
        · exact Or.inr ⟨r, by simp [hr], h2⟩

/-! ## Case analysis of the handler -/

/-- Every property that holds of the outcome of each of the ten exits of the
handler holds of the handler. -/
theorem chat_cases (env : Env V) (uuid : String) (st : Store) (sess : Session)
    (query : Option String) (P : Store × Session × Reply → Prop)
    (hEmpty : findById st (ensureSession uuid sess).sid = none → hasText query = false →
      P (st, ensureSession uuid sess, .message emailPrompt))
    (hBad : findById st (ensureSession uuid sess).sid = none → hasText query = true →
      isValidEmail (trimmed query) = false →
      P (st, ensureSession uuid sess, .message formatError))
    (hExisting : findById st (ensureSession uuid sess).sid = none → hasText query = true →
      isValidEmail (trimmed query) = true → ∀ r, findByEmail st (trimmed query) = some r →
      P (st, ⟨some r._id, some true⟩, .message servicePrompt))
    (hNew : findById st (ensureSession uuid sess).sid = none → hasText query = true →
      isValidEmail (trimmed query) = true → findByEmail st (trimmed query) = none →
      P (insertOne st ⟨(ensureSession uuid sess).sid, trimmed query, none, none⟩,
        ensureSession uuid sess, .message namePrompt))
    (hAskName : ∀ r, findById st (ensureSession uuid sess).sid = some r →
      truthyStr r.name = false → hasText query = false →
      P (st, ensureSession uuid sess, .message namePrompt))
    (hSetName : ∀ r, findById st (ensureSession uuid sess).sid = some r →
      truthyStr r.name = false → hasText query = true →
      P (updateOne st (ensureSession uuid sess).sid (setName (trimmed query)),
        { ensureSession uuid sess with awaiting_service := some true },
        .message servicePrompt))
    (hAskService : ∀ r, findById st (ensureSession uuid sess).sid = some r →
      truthyStr r.name = true → sess.awaiting_service = some true → hasText query = false →
      P (st, ensureSession uuid sess, .message servicePrompt))
    (hAddService : ∀ r, findById st (ensureSession uuid sess).sid = some r →
      truthyStr r.name = true → sess.awaiting_service = some true → hasText query = true →
      P (updateOne st (ensureSession uuid sess).sid (addToSetServices (trimmed query)),
        { ensureSession uuid sess with awaiting_service := some false },
        .message (greeting (r.name.getD ""))))
    (hFree : ∀ r, findById st (ensureSession uuid sess).sid = some r →
      truthyStr r.name = true → sess.awaiting_service ≠ some true → hasText query = true →
      P (st, ensureSession uuid sess, .response (queryVectorDB env (trimmed query)).1))
    (hInvalid : ∀ r, findById st (ensureSession uuid sess).sid = some r →
      truthyStr r.name = true → sess.awaiting_service ≠ some true → hasText query = false →
      P (st, ensureSession uuid sess, .error 400 "Invalid request")) :
    P (chat env uuid st sess query) := by
  cases hrec : findById st (ensureSession uuid sess).sid with
  | none =>
    cases hq : hasText query with
    | false => rw [chat_empty env uuid st sess query hrec hq]; exact hEmpty hrec hq
    | true =>
      cases hv : isValidEmail (trimmed query) with
      | false => rw [chat_badEmail env uuid st sess query hrec hq hv]; exact hBad hrec hq hv
      | true =>
        cases he : findByEmail st (trimmed query) with
        | some r =>
          rw [chat_existing env uuid st sess query hrec hq hv r he]
          exact hExisting hrec hq hv r he
        | none =>
          rw [chat_new env uuid st sess query hrec hq hv he]
          exact hNew hrec hq hv he
  | some r =>
    cases hn : truthyStr r.name with
    | false =>
      cases hq : hasText query with
      | false => rw [chat_askName env uuid st sess query r hrec hn hq]; exact hAskName r hrec hn hq
      | true => rw [chat_setName env uuid st sess query r hrec hn hq]; exact hSetName r hrec hn hq
    | true =>
      by_cases hf : sess.awaiting_service = some true
      · cases hq : hasText query with
        | false =>
          rw [chat_askService env uuid st sess query r hrec hn hf hq]
          exact hAskService r hrec hn hf hq
        | true =>
          rw [chat_addService env uuid st sess query r hrec hn hf hq]
          exact hAddService r hrec hn hf hq
      · cases hq : hasText query with
        | false =>
          rw [chat_invalid env uuid st sess query r hrec hn hf hq]
          exact hInvalid r hrec hn hf hq
        | true =>
          rw [chat_free env uuid st sess query r hrec hn hf hq]
          exact hFree r hrec hn hf hq

/-! ## Step 1: a session without a record -/

theorem ensureSession_id (uuid : String) (sess : Session) :
    (ensureSession uuid sess).session_id = some (ensureSession uuid sess).sid := by
  unfold ensureSession
  split
  · rename_i h
    cases hs : sess.session_id with
    | none => simp [hs, truthyStr] at h
    | some x => simp [Session.sid, hs]
  · rfl

theorem ensureSession_of_truthy (uuid : String) (sess : Session)
    (h : truthyStr sess.session_id = true) : ensureSession uuid sess = sess := by
  simp [ensureSession, h]

theorem isValidEmail_empty : isValidEmail "" = false := by decide

theorem hasText_of_valid (q : String) (hv : isValidEmail (trim q) = true) :
    hasText (some q) = true := by
  rw [hasText_iff]
  refine ⟨q, rfl, ?_⟩
  intro h
  rw [h, isValidEmail_empty] at hv
  exact Bool.false_ne_true hv

theorem findByEmail_eq_none (st : Store) (e : String) (h : ∀ r ∈ st, r.email ≠ e) :
    findByEmail st e = none := by
  unfold findByEmail
  rw [List.find?_eq_none]
  intro r hr
  simpa using h r hr

/-- C4: with no record under the session's id, an absent or blank query is
answered with the email prompt and a non-blank query that `isValidEmail` rejects
with the format-error message; both replies are plain `message` replies (no
error status), the collection is unchanged and so is the session's
`awaiting_service` flag. -/
theorem chat_email_step_reprompts (env : Env V) (uuid : String) (st : Store) (sess : Session)
    (query : Option String) (hrec : findById st (ensureSession uuid sess).sid = none) :
    ((∀ q, query = some q → trim q = "") →
      (chat env uuid st sess query).2.2 = .message emailPrompt ∧
      (chat env uuid st sess query).1 = st ∧
      (chat env uuid st sess query).2.1.awaiting_service = sess.awaiting_service) ∧
    (∀ q, query = some q → trim q ≠ "" → isValidEmail (trim q) = false →
      (chat env uuid st sess query).2.2 = .message formatError ∧
      (chat env uuid st sess query).1 = st ∧
      (chat env uuid st sess query).2.1.awaiting_service = sess.awaiting_service) := by
  constructor
  · intro h
    rw [chat_empty env uuid st sess query hrec ((hasText_false_iff _).mpr h)]
    exact ⟨rfl, rfl, ensureSession_flag uuid sess⟩
  · intro q hq hne hv
    subst hq
    rw [chat_badEmail env uuid st sess (some q) hrec ((hasText_iff _).mpr ⟨q, rfl, hne⟩) hv]
    exact ⟨rfl, rfl, ensureSession_flag uuid sess⟩

/-- C4, at a concrete input: a fresh session sending `"not-an-email"` to the
empty collection. -/
theorem chat_email_step_reprompts_witness :
    findById [] (ensureSession "u1" freshSession).sid = none ∧
    (chat sampleEnv "u1" [] freshSession (some "not-an-email")).2.2 = .message formatError ∧
    (chat sampleEnv "u1" [] freshSession (some "not-an-email")).1 = [] ∧
    (chat sampleEnv "u1" [] freshSession (some "not-an-email")).2.1.awaiting_service = none :=
  ⟨by decide,
    (chat_email_step_reprompts sampleEnv "u1" [] freshSession (some "not-an-email")
      (by decide)).2 "not-an-email" rfl (by decide) (by decide)⟩

theorem ensureSession_eq (uuid : String) (sess : Session) :
    ensureSession uuid sess = ⟨some (ensureSession uuid sess).sid, sess.awaiting_service⟩ := by
  have h1 := ensureSession_id uuid sess
  have h2 := ensureSession_flag uuid sess
  cases h : ensureSession uuid sess with
  | mk a b =>
    rw [h] at h1 h2
    simp only at h1 h2
    simp only [Session.mk.injEq]
    exact ⟨h1, h2⟩

theorem ensureSession_sid_ne (uuid : String) (sess : Session) (hu : uuid ≠ "") :
    (ensureSession uuid sess).sid ≠ "" := by
  unfold ensureSession
  split
  · rename_i h
    cases hs : sess.session_id with
    | none => simp [hs, truthyStr] at h
    | some x =>
      rw [hs, truthyStr_some] at h
      simpa [Session.sid, hs] using h
  · simpa [Session.sid] using hu

/-- A session that points at a record with a non-empty id keeps its id. -/
theorem ensureSession_of_record (uuid : String) (st : Store) (sess : Session)
    (hids : ∀ r ∈ st, r._id ≠ "") (r : UserRecord) (h : findById st sess.sid = some r) :
    ensureSession uuid sess = sess := by
  apply ensureSession_of_truthy
  have hne : sess.sid ≠ "" := by
    rw [← findById_id st _ r h]
    exact hids r (findById_mem st _ r h)
  cases hs : sess.session_id with
  | none => simp [Session.sid, hs] at hne
  | some x =>
    rw [truthyStr_some]
    simpa [Session.sid, hs] using hne

/-! ## Reachable states -/

theorem run_induction (env : Env V) (P : Sys → Prop)
    (hstep : ∀ s r, r.uuid ≠ "" → P s → P (s.step env r).1) :
    ∀ (rs : List Request) (s : Sys), (∀ r ∈ rs, r.uuid ≠ "") → P s → P (Sys.run env s rs) := by
  intro rs
  induction rs with
  | nil => intro s _ h; exact h
  | cons r rs ih =>
    intro s hu h
    exact ih _ (fun x hx => hu x (by simp [hx])) (hstep s r (hu r (by simp)) h)

theorem reachable_induction (env : Env V) (P : Sys → Prop) (h0 : P Sys.init)
    (hstep : ∀ s r, r.uuid ≠ "" → P s → P (s.step env r).1) :
    ∀ s, Reachable env s → P s := by
  rintro s ⟨rs, hu, rfl⟩
  exact run_induction env P hstep rs _ hu h0

/-- Every record id is non-empty after a request if it was so before. -/
theorem chat_ids_ne (env : Env V) (uuid : String) (st : Store) (sess : Session)
    (query : Option String) (hu : uuid ≠ "") (hids : ∀ r ∈ st, r._id ≠ "") :
    ∀ r ∈ (chat env uuid st sess query).1, r._id ≠ "" := by
  have hupd : ∀ f : UserRecord → UserRecord, (∀ r, (f r)._id = r._id) →
      ∀ r ∈ updateOne st (ensureSession uuid sess).sid f, r._id ≠ "" := by
    intro f hf r hr
    rcases mem_updateOne st _ f r hr with h | ⟨r0, h0, rfl⟩
    · exact hids r h
    · rw [hf]; exact hids r0 h0
  apply chat_cases env uuid st sess query (fun out => ∀ r ∈ out.1, r._id ≠ "")
  · intro _ _; exact hids
  · intro _ _ _; exact hids
  · intro _ _ _ _ _; exact hids
  · intro _ _ _ _ r hr
    simp only [insertOne, List.mem_append, List.mem_singleton] at hr
    rcases hr with hr | rfl
    · exact hids r hr
    · exact ensureSession_sid_ne uuid sess hu
  · intro _ _ _ _; exact hids
  · intro _ _ _ _; exact hupd (setName (trimmed query)) (fun _ => rfl)
  · intro _ _ _ _ _; exact hids
  · intro _ _ _ _ _; exact hupd (addToSetServices (trimmed query)) (fun _ => rfl)
  · intro _ _ _ _ _; exact hids
  · intro _ _ _ _ _; exact hids

/-- What a request does to the record stored under a given id: it stays, and is
untouched, or gets its missing name, or gets a service added. -/
theorem chat_record_evolves (env : Env V) (uuid : String) (st : Store) (sess : Session)
    (query : Option String) (id : String) (r : UserRecord) (h : findById st id = some r) :
    ∃ r2, findById (chat env uuid st sess query).1 id = some r2 ∧
      (r2 = r ∨ (truthyStr r.name = false ∧ ∃ n, r2 = setName n r) ∨
        (truthyStr r.name = true ∧ ∃ svc, r2 = addToSetServices svc r)) := by
  apply chat_cases env uuid st sess query (fun out => ∃ r2, findById out.1 id = some r2 ∧
      (r2 = r ∨ (truthyStr r.name = false ∧ ∃ n, r2 = setName n r) ∨
        (truthyStr r.name = true ∧ ∃ svc, r2 = addToSetServices svc r)))
  · intros; exact ⟨r, h, Or.inl rfl⟩
  · intros; exact ⟨r, h, Or.inl rfl⟩
  · intros; exact ⟨r, h, Or.inl rfl⟩
  · intros; exact ⟨r, findById_insertOne st _ id r h, Or.inl rfl⟩
  · intros; exact ⟨r, h, Or.inl rfl⟩
  · intro r0 hrec hn _
    by_cases hid : id = (ensureSession uuid sess).sid
    · subst hid
      rw [h] at hrec
      cases hrec
      exact ⟨_, findById_updateOne_same st _ (setName (trimmed query)) (fun _ => rfl) r h,
        Or.inr (Or.inl ⟨hn, _, rfl⟩)⟩
    · exact ⟨r, (findById_updateOne_other st _ id (setName (trimmed query))
        (fun _ => rfl) hid).trans h, Or.inl rfl⟩
  · intros; exact ⟨r, h, Or.inl rfl⟩
  · intro r0 hrec hn _ _
    by_cases hid : id = (ensureSession uuid sess).sid
    · subst hid
      rw [h] at hrec
      cases hrec
      exact ⟨_, findById_updateOne_same st _ (addToSetServices (trimmed query))
        (fun _ => rfl) r h, Or.inr (Or.inr ⟨hn, _, rfl⟩)⟩
    · exact ⟨r, (findById_updateOne_other st _ id (addToSetServices (trimmed query))
        (fun _ => rfl) hid).trans h, Or.inl rfl⟩
  · intros; exact ⟨r, h, Or.inl rfl⟩
  · intros; exact ⟨r, h, Or.inl rfl⟩

/-- A session whose flag is set after a request points at a record, provided this
held before the request. -/
theorem chat_flag_record (env : Env V) (uuid : String) (st : Store) (sess : Session)
    (query : Option String) (hids : ∀ r ∈ st, r._id ≠ "")
    (hflag : sess.awaiting_service = some true → ∃ r, findById st sess.sid = some r) :
    (chat env uuid st sess query).2.1.awaiting_service = some true →
      ∃ r, findById (chat env uuid st sess query).1 (chat env uuid st sess query).2.1.sid
        = some r := by
  have hcontra : findById st (ensureSession uuid sess).sid = none →
      (ensureSession uuid sess).awaiting_service = some true → False := by
    intro hrec hf
    rw [ensureSession_flag] at hf
    obtain ⟨r, hr⟩ := hflag hf
    rw [ensureSession_of_record uuid st sess hids r hr, hr] at hrec
    cases hrec
  apply chat_cases env uuid st sess query (fun out => out.2.1.awaiting_service = some true →
      ∃ r, findById out.1 out.2.1.sid = some r)
  · intro hrec _ hf; exact (hcontra hrec hf).elim
  · intro hrec _ _ hf; exact (hcontra hrec hf).elim
  · intro _ _ _ r he _
    exact findById_of_mem st r (findByEmail_mem st _ r he)
  · intro hrec _ _ _ hf; exact (hcontra hrec hf).elim
  · intro r hrec _ _ _; exact ⟨r, hrec⟩
  · intro r hrec _ _ _
    exact ⟨_, findById_updateOne_same st _ (setName (trimmed query)) (fun _ => rfl) r hrec⟩
  · intro r hrec _ _ _ _; exact ⟨r, hrec⟩
  · intro r hrec _ _ _ hf
    simp at hf
  · intro r hrec _ _ _ _; exact ⟨r, hrec⟩
  · intro r hrec _ _ _ _; exact ⟨r, hrec⟩

/-- In every reachable state record ids are non-empty and a session whose flag
is set points at a record. -/
theorem reachable_flag_record (env : Env V) (s : Sys) (h : Reachable env s) :
    (∀ r ∈ s.store, r._id ≠ "") ∧
    ∀ c, (s.sessions c).awaiting_service = some true →
      ∃ r, findById s.store (s.sessions c).sid = some r := by
  refine reachable_induction env
    (fun s => (∀ r ∈ s.store, r._id ≠ "") ∧
      ∀ c, (s.sessions c).awaiting_service = some true →
        ∃ r, findById s.store (s.sessions c).sid = some r) ?_ ?_ s h
  · exact ⟨by simp [Sys.init], by simp [Sys.init]⟩
  · rintro s r hu ⟨hids, hflag⟩
    refine ⟨chat_ids_ne env r.uuid s.store _ r.query hu hids, ?_⟩
    intro c
    by_cases hc : c = r.client
    · subst hc
      simp only [Sys.step, if_true]
      exact chat_flag_record env r.uuid s.store _ r.query hids (hflag _)
    · simp only [Sys.step, if_neg hc]
      intro hf
      obtain ⟨r0, hr0⟩ := hflag c hf
      obtain ⟨r2, hr2, -⟩ := chat_record_evolves env r.uuid s.store (s.sessions r.client)
        r.query _ r0 hr0
      exact ⟨r2, hr2⟩

/-! ## Step 1: a valid email -/

/-- The insert branch on any collection and session: one record is appended
under the session's id, the reply is the name prompt, and the session keeps its
flag. -/
theorem chat_new_email_any (env : Env V) (uuid : String) (st : Store) (sess : Session)
    (q : String) (hrec : findById st (ensureSession uuid sess).sid = none)
    (hv : isValidEmail (trim q) = true) (he : ∀ r ∈ st, r.email ≠ trim q) :
    chat env uuid st sess (some q) =
      (st ++ [⟨(ensureSession uuid sess).sid, trim q, none, none⟩],
        ⟨some (ensureSession uuid sess).sid, sess.awaiting_service⟩,
        .message namePrompt) := by
  rw [chat_new env uuid st sess (some q) hrec (hasText_of_valid q hv) hv
    (findByEmail_eq_none st _ he)]
  rw [← ensureSession_eq]
  rfl

/-- C3: in every reachable state, for a session with no record under its id, a
query whose trimmed text is a valid email that no record has makes the handler
add exactly one record, at the end of the collection, keyed by the session's id
and holding that email with no name and no services, every other record staying
as it is; the reply is the name prompt; and the session is then in
`AwaitingName`: the record exists under its id, the name is unset, and
`awaiting_service` is not set. -/
theorem chat_new_email_creates_record (env : Env V) (s : Sys) (hs : Reachable env s)
    (c : Nat) (uuid q : String)
    (hrec : findById s.store (ensureSession uuid (s.sessions c)).sid = none)
    (hv : isValidEmail (trim q) = true) (he : ∀ r ∈ s.store, r.email ≠ trim q) :
    (chat env uuid s.store (s.sessions c) (some q)).1 =
      s.store ++ [⟨(ensureSession uuid (s.sessions c)).sid, trim q, none, none⟩] ∧
    (chat env uuid s.store (s.sessions c) (some q)).2.2 = .message namePrompt ∧
    (chat env uuid s.store (s.sessions c) (some q)).2.1.session_id =
      some (ensureSession uuid (s.sessions c)).sid ∧
    (chat env uuid s.store (s.sessions c) (some q)).2.1.awaiting_service ≠ some true ∧
    findById (chat env uuid s.store (s.sessions c) (some q)).1
        (ensureSession uuid (s.sessions c)).sid
      = some ⟨(ensureSession uuid (s.sessions c)).sid, trim q, none, none⟩ := by
  have hflag : (s.sessions c).awaiting_service ≠ some true := by
    intro hf
    obtain ⟨hids, hrecs⟩ := reachable_flag_record env s hs
    obtain ⟨r, hr⟩ := hrecs c hf
    rw [ensureSession_of_record uuid s.store _ hids r hr, hr] at hrec
    cases hrec
  rw [chat_new_email_any env uuid s.store (s.sessions c) q hrec hv he]
  exact ⟨rfl, rfl, rfl, hflag,
    findById_insertOne_new s.store ⟨(ensureSession uuid (s.sessions c)).sid, trim q, none, none⟩
      hrec⟩

/-- C3 at a concrete input: after client 0 has left the record `u1`, the new
client 1 sends `" a@b.com "`; the record `u2` is added after `u1`. -/
theorem chat_new_email_creates_record_witness :
    Reachable sampleEnv (Sys.run sampleEnv Sys.init [⟨0, some "x@y.org", "u1"⟩]) ∧
    (chat sampleEnv "u2" (Sys.run sampleEnv Sys.init [⟨0, some "x@y.org", "u1"⟩]).store
        ((Sys.run sampleEnv Sys.init [⟨0, some "x@y.org", "u1"⟩]).sessions 1)
        (some " a@b.com ")).1 =
      [⟨"u1", "x@y.org", none, none⟩, ⟨"u2", "a@b.com", none, none⟩] ∧
    (chat sampleEnv "u2" (Sys.run sampleEnv Sys.init [⟨0, some "x@y.org", "u1"⟩]).store
        ((Sys.run sampleEnv Sys.init [⟨0, some "x@y.org", "u1"⟩]).sessions 1)
        (some " a@b.com ")).2.1.awaiting_service ≠ some true :=
  have hreach : Reachable sampleEnv
      (Sys.run sampleEnv Sys.init [⟨0, some "x@y.org", "u1"⟩]) :=
    ⟨_, by intro r hr; simp only [List.mem_singleton] at hr; subst hr; decide, rfl⟩
  have h := chat_new_email_creates_record sampleEnv _ hreach 1 "u2" " a@b.com "
    (by decide) (by decide) (by decide)
  ⟨hreach, h.1.trans (by decide), h.2.2.2.1⟩

/-! ## Step 1: an email that a record already has -/

/-- The existing-email branch when the record found has a name: the collection
is unchanged, the session is re-keyed with the flag set, and the next non-blank
query is added to that record's services and answered with the greeting. -/
theorem chat_existing_email_named (env : Env V) (uuid uuid2 : String) (st : Store)
    (sess : Session) (q q2 : String) (R : UserRecord)
    (hrec : findById st (ensureSession uuid sess).sid = none)
    (hv : isValidEmail (trim q) = true) (hR : findByEmail st (trim q) = some R)
    (hRid : findById st R._id = some R) (hid : R._id ≠ "")
    (hname : truthyStr R.name = true) (hq2 : trim q2 ≠ "") :
    chat env uuid st sess (some q) = (st, ⟨some R._id, some true⟩, .message servicePrompt) ∧
    chat env uuid2 st ⟨some R._id, some true⟩ (some q2) =
      (updateOne st R._id (addToSetServices (trim q2)), ⟨some R._id, some false⟩,
        .message (greeting (R.name.getD ""))) := by
  have hs : ensureSession uuid2 ⟨some R._id, some true⟩ = ⟨some R._id, some true⟩ :=
    ensureSession_of_truthy _ _ ((truthyStr_some _).mpr hid)
  constructor
  · exact chat_existing env uuid st sess (some q) hrec (hasText_of_valid q hv) hv R hR
  · rw [chat_addService env uuid2 st ⟨some R._id, some true⟩ (some q2) R
      (by rw [hs]; exact hRid) hname rfl ((hasText_iff _).mpr ⟨q2, rfl, hq2⟩)]
    rw [hs]
    rfl

/-- C1 fails on a record without a name. One request with an email leaves the
record `u1` without a name; a fresh session then sends that email; the handler re-keys the session, sets the
flag and asks for the service, and then stores the answer `"Plumbing"` as the
name of `u1`, adds nothing to its services, and asks for the service again. -/
theorem chat_existing_email_nameless :
    (Sys.run sampleEnv Sys.init [⟨0, some "a@b.com", "u1"⟩]).store = namelessStore ∧
    findById namelessStore (ensureSession "u2" freshSession).sid = none ∧
    chat sampleEnv "u2" namelessStore freshSession (some "a@b.com") =
      (namelessStore, ⟨some "u1", some true⟩, .message servicePrompt) ∧
    chat sampleEnv "u3" namelessStore ⟨some "u1", some true⟩ (some "Plumbing") =
      ([⟨"u1", "a@b.com", some "Plumbing", none⟩], ⟨some "u1", some true⟩,
        .message servicePrompt) := by
  decide

/-- C2 fails in a reachable state: client 0 submits an email and stops, client 1
submits the same email; the session of client 1 then has its flag set and
points at the record `u1`, whose name is not set. -/
theorem reachable_flag_without_name :
    Reachable sampleEnv
      (Sys.run sampleEnv Sys.init [⟨0, some "a@b.com", "u1"⟩, ⟨1, some "a@b.com", "u2"⟩]) ∧
    ((Sys.run sampleEnv Sys.init
        [⟨0, some "a@b.com", "u1"⟩, ⟨1, some "a@b.com", "u2"⟩]).sessions 1)
      = ⟨some "u1", some true⟩ ∧
    findById (Sys.run sampleEnv Sys.init
        [⟨0, some "a@b.com", "u1"⟩, ⟨1, some "a@b.com", "u2"⟩]).store "u1"
      = some ⟨"u1", "a@b.com", none, none⟩ := by
  refine ⟨⟨_, ?_, rfl⟩, by decide, by decide⟩
  intro r hr
  simp only [List.mem_cons, List.mem_singleton, List.not_mem_nil, or_false] at hr
  rcases hr with rfl | rfl <;> decide

/-- The part of C2 that holds: a non-blank service submission resets the flag
to `false`. -/
theorem chat_service_resets_flag (env : Env V) (uuid : String) (st : Store) (sess : Session)
    (q : String) (r : UserRecord) (hrec : findById st (ensureSession uuid sess).sid = some r)
    (hn : truthyStr r.name = true) (hf : sess.awaiting_service = some true)
    (hq : trim q ≠ "") :
    (chat env uuid st sess (some q)).2.1.awaiting_service = some false := by
  rw [chat_addService env uuid st sess (some q) r hrec hn hf ((hasText_iff _).mpr ⟨q, rfl, hq⟩)]

/-! ## The retrieval pipeline without documents -/

theorem retrieve_no_generate (env : Env V) (userQuery : String) :
    (retrieveFromPinecone env userQuery 3).2.filter Call.isGenerate = [] := by
  unfold retrieveFromPinecone embedWithGemini
  simp only
  split <;> simp [Call.isGenerate]

/-- C9, as amended: when retrieval yields no document, `queryVectorDB` calls
the generative model exactly once, with the prompt built from the query and the
context `"No relevant information found."`, and returns the model's trimmed
text, or `"Error generating response."` when the call fails or yields no text;
the result is non-empty unless the model's text is empty or all white space. -/
theorem queryVectorDB_no_documents (env : Env V) (userQuery : String)
    (hdocs : (retrieveFromPinecone env userQuery 3).1 = []) :
    (queryVectorDB env userQuery).2.filter Call.isGenerate =
      [.generateContent (buildPrompt userQuery "No relevant information found.")] ∧
    (queryVectorDB env userQuery).1 =
      (match env.generateContent (buildPrompt userQuery "No relevant information found.") with
       | some (some text) => trim text
       | _ => "Error generating response.") ∧
    ((∀ text, env.generateContent (buildPrompt userQuery "No relevant information found.")
        = some (some text) → trim text ≠ "") →
      (queryVectorDB env userQuery).1 ≠ "") := by
  have hctx : buildContext (retrieveFromPinecone env userQuery 3).1 =
      "No relevant information found." := by
    rw [hdocs]; rfl
  have hlog : (queryVectorDB env userQuery).2 = (retrieveFromPinecone env userQuery 3).2 ++
      [.generateContent (buildPrompt userQuery "No relevant information found.")] := by
    simp only [queryVectorDB, generateResponse, hctx]
  have hres : (queryVectorDB env userQuery).1 =
      (match env.generateContent (buildPrompt userQuery "No relevant information found.") with
       | some (some text) => trim text
       | _ => "Error generating response.") := by
    simp only [queryVectorDB, generateResponse, hctx]
  refine ⟨?_, hres, ?_⟩
  · rw [hlog, List.filter_append, retrieve_no_generate]
    rfl
  · intro h
    rw [hres]
    cases hg : env.generateContent (buildPrompt userQuery "No relevant information found.") with
    | none => simp only; decide
    | some t =>
      cases t with
      | none => simp only; decide
      | some text => exact h text hg

/-- C9 as amended, at a concrete input: the embedding call fails, so nothing is
retrieved, and the model's padded answer comes back trimmed. -/
theorem queryVectorDB_no_documents_witness :
    (retrieveFromPinecone sampleEnv "What areas do you serve?" 3).1 = [] ∧
    (queryVectorDB sampleEnv "What areas do you serve?").1 = "We serve the whole city." :=
  ⟨by decide,
    (queryVectorDB_no_documents sampleEnv "What areas do you serve?" (by decide)).2.1.trans
      (by decide)⟩

/-- C9 as stated fails: nothing is retrieved, the model answers with white space
only, and `queryVectorDB` returns the empty string. -/
theorem queryVectorDB_empty_counterexample :
    (retrieveFromPinecone blankEnv "hi" 3).1 = [] ∧ (queryVectorDB blankEnv "hi").1 = "" := by
  decide

/-! ## The end-to-end scenario -/

theorem step_eval (env : Env V) (s : Sys) (r : Request) (st2 : Store) (sess2 : Session)
    (rep : Reply) (h : chat env r.uuid s.store (s.sessions r.client) r.query = (st2, sess2, rep)) :
    (s.step env r).1.store = st2 ∧ (s.step env r).1.sessions r.client = sess2 ∧
      (s.step env r).2 = rep := by
  simp [Sys.step, h]

/-- C10: from the empty collection and a new session, the six queries `""`,
`"not-an-email"`, `"a@b.com"`, `"Ann"`, `"Plumbing"`, `"What areas do you
serve?"` are answered with the email prompt, the format-error message, the name
prompt, the service prompt, the greeting for Ann, and the result of
`queryVectorDB` on the last query; the collection is empty after the second
request and holds exactly one record, with email `"a@b.com"`, after the third. -/
theorem end_to_end_scenario (env : Env V) (c : Nat) (u1 u2 u3 u4 u5 u6 : String)
    (hu : u1 ≠ "") :
    Sys.replies env Sys.init
        [⟨c, some "", u1⟩, ⟨c, some "not-an-email", u2⟩, ⟨c, some "a@b.com", u3⟩,
         ⟨c, some "Ann", u4⟩, ⟨c, some "Plumbing", u5⟩,
         ⟨c, some "What areas do you serve?", u6⟩] =
      [.message "What is your email address?",
       .message "That doesn’t look like an email. Please enter a valid email address.",
       .message "What is your name?",
       .message "For what service are you looking?",
       .message "Hi! Ann, How can I assist you?",
       .response (queryVectorDB env "What areas do you serve?").1] ∧
    (Sys.run env Sys.init [⟨c, some "", u1⟩, ⟨c, some "not-an-email", u2⟩]).store = [] ∧
    (Sys.run env Sys.init
        [⟨c, some "", u1⟩, ⟨c, some "not-an-email", u2⟩, ⟨c, some "a@b.com", u3⟩]).store =
      [⟨u1, "a@b.com", none, none⟩] := by
  have ht : truthyStr (some u1) = true := (truthyStr_some _).mpr hu
  have hkeep : ∀ (u : String) (f : Option Bool), ensureSession u ⟨some u1, f⟩ = ⟨some u1, f⟩ :=
    fun u f => ensureSession_of_truthy u _ ht
  have hfind : ∀ (n : Option String) (sv : Option (List String)),
      findById [⟨u1, "a@b.com", n, sv⟩] u1 = some ⟨u1, "a@b.com", n, sv⟩ := by
    intro n sv; simp [findById]
  have hupd : ∀ (n : Option String) (sv : Option (List String)) (f : UserRecord → UserRecord),
      updateOne [⟨u1, "a@b.com", n, sv⟩] u1 f = [f ⟨u1, "a@b.com", n, sv⟩] := by
    intro n sv f; simp [updateOne]
  -- the six calls of the handler
  have c1 : chat env u1 [] ⟨none, none⟩ (some "") = ([], ⟨some u1, none⟩, .message emailPrompt) :=
    chat_empty env u1 [] ⟨none, none⟩ (some "") rfl (by decide)
  have c2 : chat env u2 [] ⟨some u1, none⟩ (some "not-an-email") =
      ([], ⟨some u1, none⟩, .message formatError) := by
    rw [chat_badEmail env u2 [] ⟨some u1, none⟩ (some "not-an-email") rfl (by decide)
      (by decide), hkeep]
  have c3 : chat env u3 [] ⟨some u1, none⟩ (some "a@b.com") =
      ([⟨u1, "a@b.com", none, none⟩], ⟨some u1, none⟩, .message namePrompt) := by
    rw [chat_new env u3 [] ⟨some u1, none⟩ (some "a@b.com") rfl (by decide) (by decide) rfl,
      hkeep]
    rfl
  have c4 : chat env u4 [⟨u1, "a@b.com", none, none⟩] ⟨some u1, none⟩ (some "Ann") =
      ([⟨u1, "a@b.com", some "Ann", none⟩], ⟨some u1, some true⟩,
        .message servicePrompt) := by
    rw [chat_setName env u4 _ ⟨some u1, none⟩ (some "Ann") ⟨u1, "a@b.com", none, none⟩
      (by rw [hkeep]; exact hfind _ _) rfl (by decide), hkeep]
    simp only [Session.sid, Option.getD_some, hupd]
    rfl
  have c5 : chat env u5 [⟨u1, "a@b.com", some "Ann", none⟩] ⟨some u1, some true⟩
      (some "Plumbing") =
      ([⟨u1, "a@b.com", some "Ann", some ["Plumbing"]⟩], ⟨some u1, some false⟩,
        .message (greeting "Ann")) := by
    rw [chat_addService env u5 _ ⟨some u1, some true⟩ (some "Plumbing")
      ⟨u1, "a@b.com", some "Ann", none⟩ (by rw [hkeep]; exact hfind _ _) rfl rfl
      (by decide), hkeep]
    simp only [Session.sid, Option.getD_some, hupd]
    rfl
  have c6 : chat env u6 [⟨u1, "a@b.com", some "Ann", some ["Plumbing"]⟩]
      ⟨some u1, some false⟩ (some "What areas do you serve?") =
      ([⟨u1, "a@b.com", some "Ann", some ["Plumbing"]⟩], ⟨some u1, some false⟩,
        .response (queryVectorDB env "What areas do you serve?").1) := by
    rw [chat_free env u6 _ ⟨some u1, some false⟩ (some "What areas do you serve?")
      ⟨u1, "a@b.com", some "Ann", some ["Plumbing"]⟩ (by rw [hkeep]; exact hfind _ _)
      rfl (by simp) (by decide), hkeep]
    rfl
  -- threaded through the system
  obtain ⟨a1, b1, r1⟩ := step_eval env Sys.init ⟨c, some "", u1⟩ [] ⟨some u1, none⟩
    (.message emailPrompt) c1
  obtain ⟨a2, b2, r2⟩ := step_eval env _ ⟨c, some "not-an-email", u2⟩ [] ⟨some u1, none⟩
    (.message formatError) (by rw [a1, b1]; exact c2)
  obtain ⟨a3, b3, r3⟩ := step_eval env _ ⟨c, some "a@b.com", u3⟩
    [⟨u1, "a@b.com", none, none⟩] ⟨some u1, none⟩ (.message namePrompt)
    (by rw [a2, b2]; exact c3)
  obtain ⟨a4, b4, r4⟩ := step_eval env _ ⟨c, some "Ann", u4⟩
    [⟨u1, "a@b.com", some "Ann", none⟩] ⟨some u1, some true⟩ (.message servicePrompt)
    (by rw [a3, b3]; exact c4)
  obtain ⟨a5, b5, r5⟩ := step_eval env _ ⟨c, some "Plumbing", u5⟩
    [⟨u1, "a@b.com", some "Ann", some ["Plumbing"]⟩] ⟨some u1, some false⟩
    (.message (greeting "Ann")) (by rw [a4, b4]; exact c5)
  obtain ⟨-, -, r6⟩ := step_eval env _ ⟨c, some "What areas do you serve?", u6⟩
    [⟨u1, "a@b.com", some "Ann", some ["Plumbing"]⟩] ⟨some u1, some false⟩
    (.response (queryVectorDB env "What areas do you serve?").1) (by rw [a5, b5]; exact c6)
  refine ⟨?_, a2, a3⟩
  simp only [Sys.replies, r1, r2, r3, r4, r5, r6]
  rfl

/-- C10 at concrete identifiers, with the sample environment: the model's answer
comes back trimmed. -/
theorem end_to_end_scenario_witness :
    ("u1" : String) ≠ "" ∧
    (Sys.replies sampleEnv Sys.init
        [⟨0, some "", "u1"⟩, ⟨0, some "not-an-email", "u2"⟩, ⟨0, some "a@b.com", "u3"⟩,
         ⟨0, some "Ann", "u4"⟩, ⟨0, some "Plumbing", "u5"⟩,
         ⟨0, some "What areas do you serve?", "u6"⟩]).getLast? =
      some (.response "We serve the whole city.") :=
  ⟨by decide, by
    rw [(end_to_end_scenario sampleEnv 0 "u1" "u2" "u3" "u4" "u5" "u6" (by decide)).1]
    decide⟩

/-! ## Emails -/

theorem chat_emails (env : Env V) (uuid : String) (st : Store) (sess : Session)
    (query : Option String) :
    (chat env uuid st sess query).1.map (fun r => r.email) = st.map (fun r => r.email) ∨
    ∃ e, (chat env uuid st sess query).1.map (fun r => r.email) = st.map (fun r => r.email) ++ [e]
      ∧ e ∉ st.map (fun r => r.email) ∧ isValidEmail e = true := by
  apply chat_cases env uuid st sess query (fun out =>
    out.1.map (fun r => r.email) = st.map (fun r => r.email) ∨
    ∃ e, out.1.map (fun r => r.email) = st.map (fun r => r.email) ++ [e]
      ∧ e ∉ st.map (fun r => r.email) ∧ isValidEmail e = true)
  · intro _ _; exact Or.inl rfl
  · intro _ _ _; exact Or.inl rfl
  · intro _ _ _ _ _; exact Or.inl rfl
  · intro _ _ hv he
    exact Or.inr ⟨trimmed query, by simp [insertOne], findByEmail_none st _ he, hv⟩
  · intro _ _ _ _; exact Or.inl rfl
  · intro _ _ _ _; exact Or.inl (map_updateOne _ st _ _ (fun _ => rfl))
  · intro _ _ _ _ _; exact Or.inl rfl
  · intro _ _ _ _ _; exact Or.inl (map_updateOne _ st _ _ (fun _ => rfl))
  · intro _ _ _ _ _; exact Or.inl rfl
  · intro _ _ _ _ _; exact Or.inl rfl

theorem chat_keys (env : Env V) (uuid : String) (st : Store) (sess : Session)
    (query : Option String) :
    ∃ added, (chat env uuid st sess query).1.map (fun r => (r._id, r.email)) =
      st.map (fun r => (r._id, r.email)) ++ added := by
  apply chat_cases env uuid st sess query (fun out =>
    ∃ added, out.1.map (fun r => (r._id, r.email)) = st.map (fun r => (r._id, r.email)) ++ added)
  · intro _ _; exact ⟨[], by simp⟩
  · intro _ _ _; exact ⟨[], by simp⟩
  · intro _ _ _ _ _; exact ⟨[], by simp⟩
  · intro _ _ _ _; exact ⟨[((ensureSession uuid sess).sid, trimmed query)], by simp [insertOne]⟩
  · intro _ _ _ _; exact ⟨[], by simp⟩
  · intro _ _ _ _
    have h := map_updateOne (fun r => (r._id, r.email)) st (ensureSession uuid sess).sid
      (setName (trimmed query)) (fun _ => rfl)
    exact ⟨[], by simpa using h⟩
  · intro _ _ _ _ _; exact ⟨[], by simp⟩
  · intro _ _ _ _ _
    have h := map_updateOne (fun r => (r._id, r.email)) st (ensureSession uuid sess).sid
      (addToSetServices (trimmed query)) (fun _ => rfl)
    exact ⟨[], by simpa using h⟩
  · intro _ _ _ _ _; exact ⟨[], by simp⟩
  · intro _ _ _ _ _; exact ⟨[], by simp⟩

/-- C7: in every reachable state no two records have the same email and every
email satisfies `isValidEmail`; and a request keeps the id and the email of
every record it finds in the collection, in place (records are only added at
the end). -/
theorem emails_unique_valid_stable (env : Env V) :
    (∀ s : Sys, Reachable env s →
      (s.store.map (fun r => r.email)).Nodup ∧ ∀ r ∈ s.store, isValidEmail r.email = true) ∧
    (∀ (uuid : String) (st : Store) (sess : Session) (query : Option String),
      ∃ added, (chat env uuid st sess query).1.map (fun r => (r._id, r.email)) =
        st.map (fun r => (r._id, r.email)) ++ added) := by
  refine ⟨?_, chat_keys env⟩
  intro s hs
  have key : (s.store.map (fun r => r.email)).Nodup ∧
      ∀ e ∈ s.store.map (fun r => r.email), isValidEmail e = true := by
    refine reachable_induction env
      (fun s => (s.store.map (fun r => r.email)).Nodup ∧
        ∀ e ∈ s.store.map (fun r => r.email), isValidEmail e = true) ?_ ?_ s hs
    · simp [Sys.init]
    · rintro s r - ⟨hnd, hval⟩
      simp only [Sys.step]
      rcases chat_emails env r.uuid s.store (s.sessions r.client) r.query with h | ⟨e, h, hnew, hv⟩
      · rw [h]; exact ⟨hnd, hval⟩
      · rw [h]
        refine ⟨?_, ?_⟩
        · rw [List.nodup_append]
          refine ⟨hnd, by simp, ?_⟩
          intro a ha hb
          simp only [List.mem_singleton] at hb
          subst hb
          exact hnew ha
        · intro x hx
          simp only [List.mem_append, List.mem_singleton] at hx
          rcases hx with hx | rfl
          · exact hval x hx
          · exact hv
  exact ⟨key.1, fun r hr => key.2 r.email (List.mem_map_of_mem _ hr)⟩

/-! ## Names -/

theorem greeting_ne_namePrompt (n : String) : greeting n ≠ namePrompt := by
  intro h
  have h2 := congrArg (fun t : String => t.toList.head?) h
  simp [greeting, namePrompt] at h2

theorem servicePrompt_ne_namePrompt : servicePrompt ≠ namePrompt := by decide

/-- With a named record under the session's id, names stay and the reply is
never the name prompt. -/
theorem chat_named (env : Env V) (uuid : String) (st : Store) (sess : Session)
    (query : Option String) (r : UserRecord)
    (hrec : findById st (ensureSession uuid sess).sid = some r)
    (hn : truthyStr r.name = true) :
    (chat env uuid st sess query).1.map (fun x => x.name) = st.map (fun x => x.name) ∧
    (chat env uuid st sess query).2.2 ≠ .message namePrompt := by
  by_cases hf : sess.awaiting_service = some true
  · cases hq : hasText query with
    | false =>
      rw [chat_askService env uuid st sess query r hrec hn hf hq]
      exact ⟨rfl, by simp [servicePrompt_ne_namePrompt]⟩
    | true =>
      rw [chat_addService env uuid st sess query r hrec hn hf hq]
      exact ⟨map_updateOne (fun x => x.name) st _ (addToSetServices (trimmed query))
        (fun _ => rfl), by simp [greeting_ne_namePrompt]⟩
  · cases hq : hasText query with
    | false =>
      rw [chat_invalid env uuid st sess query r hrec hn hf hq]
      exact ⟨rfl, by simp⟩
    | true =>
      rw [chat_free env uuid st sess query r hrec hn hf hq]
      exact ⟨rfl, by simp⟩

theorem evolves_name (r r2 : UserRecord) (hn : truthyStr r.name = true)
    (h : r2 = r ∨ (truthyStr r.name = false ∧ ∃ n, r2 = setName n r) ∨
      (truthyStr r.name = true ∧ ∃ svc, r2 = addToSetServices svc r)) : r2.name = r.name := by
  rcases h with rfl | ⟨h, -⟩ | ⟨-, svc, rfl⟩
  · rfl
  · rw [hn] at h; cases h
  · rfl

/-- C5: a non-blank query sets the name of a nameless record the session points
at to the trimmed query; with a named record the handler leaves every name as it
is and never replies with the name prompt; so along every sequence of requests,
from any state, a name once set stays and no request of a session pointing at
that record is answered with the name prompt. -/
theorem name_set_once (env : Env V) :
    (∀ (uuid : String) (st : Store) (sess : Session) (q : String) (r : UserRecord),
      findById st (ensureSession uuid sess).sid = some r → truthyStr r.name = false →
      trim q ≠ "" →
      (chat env uuid st sess (some q)).1 =
          updateOne st (ensureSession uuid sess).sid (setName (trim q)) ∧
        findById (chat env uuid st sess (some q)).1 (ensureSession uuid sess).sid =
          some { r with name := some (trim q) }) ∧
    (∀ (uuid : String) (st : Store) (sess : Session) (query : Option String) (r : UserRecord),
      findById st (ensureSession uuid sess).sid = some r → truthyStr r.name = true →
      (chat env uuid st sess query).1.map (fun x => x.name) = st.map (fun x => x.name) ∧
        (chat env uuid st sess query).2.2 ≠ .message namePrompt) ∧
    (∀ (rs : List Request) (s : Sys) (id : String) (r : UserRecord),
      findById s.store id = some r → truthyStr r.name = true →
      (∃ r2, findById (Sys.run env s rs).store id = some r2 ∧ r2.name = r.name) ∧
        ∀ e ∈ Sys.trace env s rs,
          (ensureSession e.2.1.uuid (e.1.sessions e.2.1.client)).sid = id →
          e.2.2 ≠ .message namePrompt) := by
  refine ⟨?_, chat_named env, ?_⟩
  · intro uuid st sess q r hrec hn hq
    rw [chat_setName env uuid st sess (some q) r hrec hn ((hasText_iff _).mpr ⟨q, rfl, hq⟩)]
    exact ⟨rfl, findById_updateOne_same st _ (setName (trim q)) (fun _ => rfl) r hrec⟩
  · intro rs
    induction rs with
    | nil =>
      intro s id r h _
      exact ⟨⟨r, h, rfl⟩, by simp [Sys.trace]⟩
    | cons req rs ih =>
      intro s id r h hn
      obtain ⟨r2, hr2, hev⟩ := chat_record_evolves env req.uuid s.store (s.sessions req.client)
        req.query id r h
      have hname : r2.name = r.name := evolves_name r r2 hn hev
      obtain ⟨⟨r3, hr3, hn3⟩, htr⟩ := ih (s.step env req).1 id r2 hr2 (by rw [hname]; exact hn)
      refine ⟨⟨r3, hr3, hn3.trans hname⟩, ?_⟩
      intro e he
      simp only [Sys.trace, List.mem_cons] at he
      rcases he with rfl | he
      · intro hid
        exact (chat_named env req.uuid s.store (s.sessions req.client) req.query r
          (by rw [hid]; exact h) hn).2
      · exact htr e he

/-- C5 at a concrete input: the request `"Ann"` names the nameless record `u1`;
the name survives two further requests. -/
theorem name_set_once_witness :
    findById (chat sampleEnv "u9" namelessStore ⟨some "u1", none⟩ (some " Ann ")).1 "u1" =
      some ⟨"u1", "a@b.com", some "Ann", none⟩ ∧
    ∃ r2, findById (Sys.run sampleEnv ⟨[⟨"u1", "a@b.com", some "Ann", none⟩],
        fun _ => ⟨some "u1", some true⟩⟩
        [⟨0, some "Bob", "u2"⟩, ⟨1, some "Eve", "u3"⟩]).store "u1" = some r2 ∧
      r2.name = some "Ann" :=
  ⟨((name_set_once sampleEnv).1 "u9" namelessStore ⟨some "u1", none⟩ " Ann "
      ⟨"u1", "a@b.com", none, none⟩ (by decide) (by decide) (by decide)).2,
    ((name_set_once sampleEnv).2.2 [⟨0, some "Bob", "u2"⟩, ⟨1, some "Eve", "u3"⟩]
      ⟨[⟨"u1", "a@b.com", some "Ann", none⟩], fun _ => ⟨some "u1", some true⟩⟩ "u1"
      ⟨"u1", "a@b.com", some "Ann", none⟩ (by decide) (by decide)).1⟩

/-! ## Services -/

theorem addToSet_serviceList (svc : String) (r : UserRecord) :
    (addToSetServices svc r).serviceList =
      if svc ∈ r.serviceList then r.serviceList else r.serviceList ++ [svc] := by
  unfold addToSetServices UserRecord.serviceList
  cases hs : r.services with
  | none => simp
  | some l =>
    by_cases hm : svc ∈ l
    · simp [hm]
    · simp [hm]

theorem addToSet_mem (svc : String) (r : UserRecord) :
    svc ∈ (addToSetServices svc r).serviceList := by
  rw [addToSet_serviceList]
  split
  · assumption
  · simp

theorem addToSet_subset (svc : String) (r : UserRecord) :
    ∀ x ∈ r.serviceList, x ∈ (addToSetServices svc r).serviceList := by
  intro x hx
  rw [addToSet_serviceList]
  split
  · exact hx
  · simp [hx]

theorem addToSet_nodup (svc : String) (r : UserRecord) (h : r.serviceList.Nodup) :
    (addToSetServices svc r).serviceList.Nodup := by
  rw [addToSet_serviceList]
  split
  · exact h
  · rename_i hm
    rw [List.nodup_append]
    refine ⟨h, by simp, ?_⟩
    intro a ha hb
    simp only [List.mem_singleton] at hb
    subst hb
    exact hm ha

theorem evolves_services (r r2 : UserRecord) (svc : String)
    (h : r2 = r ∨ (truthyStr r.name = false ∧ ∃ n, r2 = setName n r) ∨
      (truthyStr r.name = true ∧ ∃ s, r2 = addToSetServices s r))
    (hq : svc ∈ r.serviceList ∧ r.serviceList.Nodup) :
    svc ∈ r2.serviceList ∧ r2.serviceList.Nodup := by
  rcases h with rfl | ⟨-, n, rfl⟩ | ⟨-, s, rfl⟩
  · exact hq
  · exact hq
  · exact ⟨addToSet_subset s r svc hq.1, addToSet_nodup s r hq.2⟩

theorem run_services (env : Env V) (svc id : String) :
    ∀ (rs : List Request) (s : Sys) (r : UserRecord), findById s.store id = some r →
      svc ∈ r.serviceList ∧ r.serviceList.Nodup →
      ∃ r2, findById (Sys.run env s rs).store id = some r2 ∧
        svc ∈ r2.serviceList ∧ r2.serviceList.Nodup := by
  intro rs
  induction rs with
  | nil => intro s r h hq; exact ⟨r, h, hq⟩
  | cons req rs ih =>
    intro s r h hq
    obtain ⟨r2, hr2, hev⟩ := chat_record_evolves env req.uuid s.store (s.sessions req.client)
      req.query id r h
    exact ih (s.step env req).1 r2 hr2 (evolves_services r r2 svc hev hq)

/-- The records after a request: those before, a new one without name and
services, or one of those before with its name set or a service added. -/
theorem chat_mem (env : Env V) (uuid : String) (st : Store) (sess : Session)
    (query : Option String) :
    ∀ r2 ∈ (chat env uuid st sess query).1,
      r2 ∈ st ∨ r2.services = none ∨
        ∃ r ∈ st, (∃ n, r2 = setName n r) ∨ ∃ svc, r2 = addToSetServices svc r := by
  have hupd : ∀ f : UserRecord → UserRecord,
      ((∃ n, f = setName n) ∨ ∃ svc, f = addToSetServices svc) →
      ∀ r2 ∈ updateOne st (ensureSession uuid sess).sid f,
        r2 ∈ st ∨ r2.services = none ∨
          ∃ r ∈ st, (∃ n, r2 = setName n r) ∨ ∃ svc, r2 = addToSetServices svc r := by
    intro f hf r2 hr2
    rcases mem_updateOne st _ f r2 hr2 with h | ⟨r, hr, rfl⟩
    · exact Or.inl h
    · rcases hf with ⟨n, rfl⟩ | ⟨svc, rfl⟩
      · exact Or.inr (Or.inr ⟨r, hr, Or.inl ⟨n, rfl⟩⟩)
      · exact Or.inr (Or.inr ⟨r, hr, Or.inr ⟨svc, rfl⟩⟩)
  apply chat_cases env uuid st sess query (fun out => ∀ r2 ∈ out.1,
      r2 ∈ st ∨ r2.services = none ∨
        ∃ r ∈ st, (∃ n, r2 = setName n r) ∨ ∃ svc, r2 = addToSetServices svc r)
  · intro _ _ r2 h; exact Or.inl h
  · intro _ _ _ r2 h; exact Or.inl h
  · intro _ _ _ _ _ r2 h; exact Or.inl h
  · intro _ _ _ _ r2 h
    simp only [insertOne, List.mem_append, List.mem_singleton] at h
    rcases h with h | rfl
    · exact Or.inl h
    · exact Or.inr (Or.inl rfl)
  · intro _ _ _ _ r2 h; exact Or.inl h
  · intro _ _ _ _; exact hupd _ (Or.inl ⟨_, rfl⟩)
  · intro _ _ _ _ _ r2 h; exact Or.inl h
  · intro _ _ _ _ _; exact hupd _ (Or.inr ⟨_, rfl⟩)
  · intro _ _ _ _ _ r2 h; exact Or.inl h
  · intro _ _ _ _ _ r2 h; exact Or.inl h

/-- C6: in `AwaitingService` a non-blank submission of `s` leaves the services
of the record as they are when `s` is among them, and otherwise appends exactly
`s` after the earlier services; once `s` has been submitted for a record whose
services are duplicate-free, they hold exactly one occurrence of `s` after any
further requests, a second submission of `s` included; and no record of a
reachable state has a duplicate among its services. -/
theorem services_set_semantics (env : Env V) :
    (∀ (uuid : String) (st : Store) (sess : Session) (q : String) (r : UserRecord),
      findById st (ensureSession uuid sess).sid = some r → truthyStr r.name = true →
      sess.awaiting_service = some true → trim q ≠ "" →
      ∃ r2, findById (chat env uuid st sess (some q)).1 (ensureSession uuid sess).sid = some r2 ∧
        r2._id = r._id ∧ r2.email = r.email ∧ r2.name = r.name ∧
        (trim q ∈ r.serviceList → r2.serviceList = r.serviceList) ∧
        (trim q ∉ r.serviceList → r2.serviceList = r.serviceList ++ [trim q])) ∧
    (∀ (s : Sys) (id svc : String) (r : UserRecord) (req1 : Request) (rs : List Request),
      findById s.store id = some r → r.serviceList.Nodup →
      IsServiceSubmission s req1 id svc →
      ∃ r2, findById (Sys.run env (s.step env req1).1 rs).store id = some r2 ∧
        r2.serviceList.count svc = 1) ∧
    (∀ s : Sys, Reachable env s → ∀ r ∈ s.store, r.serviceList.Nodup) := by
  refine ⟨?_, ?_, ?_⟩
  · intro uuid st sess q r hrec hn hf hq
    rw [chat_addService env uuid st sess (some q) r hrec hn hf
      ((hasText_iff _).mpr ⟨q, rfl, hq⟩)]
    refine ⟨_, findById_updateOne_same st _ (addToSetServices (trim q)) (fun _ => rfl) r hrec,
      rfl, rfl, rfl, ?_, ?_⟩
    · intro hm; rw [addToSet_serviceList, if_pos hm]
    · intro hm; rw [addToSet_serviceList, if_neg hm]
  · intro s id svc r req1 rs hrec hnd hsub
    obtain ⟨hid, ⟨r0, hr0, hn⟩, hf, q, hq, hsvc, hne⟩ := hsub
    rw [hrec] at hr0
    cases hr0
    have hstep : (s.step env req1).1.store =
        updateOne s.store id (addToSetServices svc) := by
      simp only [Sys.step]
      rw [hq, chat_addService env req1.uuid s.store _ (some q) r (by rw [hid]; exact hrec) hn hf
        ((hasText_iff _).mpr ⟨q, rfl, by rw [hsvc]; exact hne⟩), hid, trimmed_some, hsvc]
    have h1 : findById (s.step env req1).1.store id = some (addToSetServices svc r) := by
      rw [hstep]
      exact findById_updateOne_same s.store id (addToSetServices svc) (fun _ => rfl) r hrec
    obtain ⟨r2, hr2, hm, hnd2⟩ := run_services env svc id rs _ _ h1
      ⟨addToSet_mem svc r, addToSet_nodup svc r hnd⟩
    exact ⟨r2, hr2, List.count_eq_one_of_mem hnd2 hm⟩
  · intro s hs
    refine reachable_induction env (fun s => ∀ r ∈ s.store, r.serviceList.Nodup) ?_ ?_ s hs
    · simp [Sys.init]
    · intro s req _ ih r2 hr2
      rcases chat_mem env req.uuid s.store (s.sessions req.client) req.query r2 hr2 with
        h | h | ⟨r, hr, ⟨n, rfl⟩ | ⟨svc, rfl⟩⟩
      · exact ih r2 h
      · simp [UserRecord.serviceList, h]
      · exact ih r hr
      · exact addToSet_nodup svc r (ih r hr)

/-- C6 at a concrete input: two sessions in `AwaitingService` for the record
`u1` both submit `"Plumbing"`; the services then hold it exactly once. -/
theorem services_set_semantics_witness :
    (Sys.run sampleEnv ⟨[⟨"u1", "a@b.com", some "Ann", none⟩], fun _ => ⟨some "u1", some true⟩⟩
        [⟨0, some "Plumbing", "u2"⟩, ⟨1, some " Plumbing ", "u3"⟩]).store =
      [⟨"u1", "a@b.com", some "Ann", some ["Plumbing"]⟩] ∧
    ∃ r2, findById (Sys.run sampleEnv
        (Sys.step sampleEnv
          ⟨[⟨"u1", "a@b.com", some "Ann", none⟩], fun _ => ⟨some "u1", some true⟩⟩
          ⟨0, some "Plumbing", "u2"⟩).1
        [⟨1, some " Plumbing ", "u3"⟩]).store "u1" = some r2 ∧
      r2.serviceList.count "Plumbing" = 1 :=
  ⟨by decide,
    (services_set_semantics sampleEnv).2.1
      ⟨[⟨"u1", "a@b.com", some "Ann", none⟩], fun _ => ⟨some "u1", some true⟩⟩
      "u1" "Plumbing" ⟨"u1", "a@b.com", some "Ann", none⟩ ⟨0, some "Plumbing", "u2"⟩
      [⟨1, some " Plumbing ", "u3"⟩] (by decide) (by decide)
      ⟨by decide, ⟨⟨"u1", "a@b.com", some "Ann", none⟩, by decide, by decide⟩, by decide,
        "Plumbing", rfl, by decide, by decide⟩⟩

end TriadFlair
